import Mathlib

/-!
Shallow embedding of the `jrockway/display` repository: the snapshot
aggregation and rendering pipeline from `server/pages/pages.go` and the
weather-station decoder from the `mesonet` package.

Conventions used throughout:
* Go `float64` values produced by the program's own arithmetic are modelled
  as `ℚ`; the one place where the code can produce a non-finite float
  (division by a zero count) is modelled explicitly with `GoFloat`.
* `time.Time` is modelled as `ℤ` (seconds); the Go zero `time.Time` is the
  integer `0`, and `t.IsZero()` is `t = 0`.
* Fallible Go functions return `Except String _`; a Go runtime panic
  (out-of-range index) is modelled as an explicit `crash` outcome.
-/

/-- An RGBA color, one `ℕ` per channel (r, g, b, a). -/
abbrev RGBA : Type := ℕ × ℕ × ℕ × ℕ

/-- The zero `color.RGBA{}`: what `image.NewRGBA` fills pixels with. -/
def rgbaZero : RGBA := (0, 0, 0, 0)

/-- An `*image.RGBA` pixel buffer: bounds `(0,0)-(width,height)` plus the
color stored at each coordinate.  Out-of-bounds reads return the zero
color, matching `image.RGBA.At`. -/
structure Img where
  width : ℕ
  height : ℕ
  pix : ℕ → ℕ → RGBA

/-- `image.NewRGBA(image.Rect(0, 0, w, h))`: every pixel is the zero color. -/
def blankImg (w h : ℕ) : Img := ⟨w, h, fun _ _ => rgbaZero⟩

/-- `img.Set(x, y, c)`: stores `c` at `(x, y)`; silently ignores
out-of-bounds coordinates, as `image.RGBA.Set` does. -/
def setPix (m : Img) (x y : ℕ) (c : RGBA) : Img :=
  if x < m.width ∧ y < m.height then
    { m with pix := fun a b => if a = x ∧ b = y then c else m.pix a b }
  else m

/-- The sequence of `img.Set` calls performed by the nested loops of
`Display.enlargedImage` (pages.go): for each source pixel `(x, y)` and each
`i, j` with `space ≤ i, j < enlarge - space`, write the source color at
`(x*enlarge + i, y*enlarge + j)`.  Loop order is preserved. -/
def enlargeWrites (src : Img) (enlarge space : ℕ) : List (ℕ × ℕ × RGBA) :=
  (List.range src.width).flatMap fun x =>
    (List.range src.height).flatMap fun y =>
      (List.range' space (enlarge - space - space)).flatMap fun i =>
        (List.range' space (enlarge - space - space)).map fun j =>
          (x * enlarge + i, y * enlarge + j, src.pix x y)

/-- `Display.enlargedImage(enlarge, space)` (pages.go): if no image has been
rendered yet (`d.image == nil`), a blank 1×1 buffer is substituted; a buffer
of `enlarge` times the source dimensions is allocated and the interior of
each `enlarge×enlarge` block is filled with the source pixel's color. -/
def enlargedImage (src0 : Option Img) (enlarge space : ℕ) : Img :=
  let src := src0.getD (blankImg 1 1)
  (enlargeWrites src enlarge space).foldl
    (fun img w => setPix img w.1 w.2.1 w.2.2)
    (blankImg (enlarge * src.width) (enlarge * src.height))

/-- A 1×1 source buffer holding the single pixel color `c`. -/
def onePixelImg (c : RGBA) : Img :=
  ⟨1, 1, fun x y => if x = 0 ∧ y = 0 then c else rgbaZero⟩

theorem setPix_width (m : Img) (x y : ℕ) (c : RGBA) :
    (setPix m x y c).width = m.width := by
  unfold setPix; split <;> rfl

theorem setPix_height (m : Img) (x y : ℕ) (c : RGBA) :
    (setPix m x y c).height = m.height := by
  unfold setPix; split <;> rfl

theorem foldl_setPix_width (ws : List (ℕ × ℕ × RGBA)) (m : Img) :
    (ws.foldl (fun img w => setPix img w.1 w.2.1 w.2.2) m).width = m.width := by
  induction ws generalizing m with
  | nil => rfl
  | cons w rest ih => simpa [List.foldl_cons, setPix_width] using ih (setPix m w.1 w.2.1 w.2.2)

theorem foldl_setPix_height (ws : List (ℕ × ℕ × RGBA)) (m : Img) :
    (ws.foldl (fun img w => setPix img w.1 w.2.1 w.2.2) m).height = m.height := by
  induction ws generalizing m with
  | nil => rfl
  | cons w rest ih => simpa [List.foldl_cons, setPix_height] using ih (setPix m w.1 w.2.1 w.2.2)

theorem setPix_pix_ne (m : Img) (x y X Y : ℕ) (c : RGBA) (h : ¬(X = x ∧ Y = y)) :
    (setPix m x y c).pix X Y = m.pix X Y := by
  unfold setPix
  split
  · simp only [if_neg h]
  · rfl

theorem setPix_pix_eq (m : Img) (x y : ℕ) (c : RGBA) (hx : x < m.width) (hy : y < m.height) :
    (setPix m x y c).pix x y = c := by
  unfold setPix
  rw [if_pos ⟨hx, hy⟩]
  simp

theorem setPix_oob (m : Img) (x y : ℕ) (c : RGBA) (h : ¬(x < m.width ∧ y < m.height)) :
    setPix m x y c = m := by
  unfold setPix
  exact if_neg h

/-- A write list with no effective (in-bounds) write at `(X, Y)` leaves that
pixel unchanged. -/
theorem foldl_setPix_not_covered (ws : List (ℕ × ℕ × RGBA)) (m : Img) (X Y : ℕ)
    (h : ∀ w ∈ ws, ¬(w.1 = X ∧ w.2.1 = Y ∧ w.1 < m.width ∧ w.2.1 < m.height)) :
    (ws.foldl (fun img w => setPix img w.1 w.2.1 w.2.2) m).pix X Y = m.pix X Y := by
  induction ws generalizing m with
  | nil => rfl
  | cons w rest ih =>
    rw [List.foldl_cons]
    have hrest : ∀ u ∈ rest,
        ¬(u.1 = X ∧ u.2.1 = Y ∧ u.1 < (setPix m w.1 w.2.1 w.2.2).width ∧
          u.2.1 < (setPix m w.1 w.2.1 w.2.2).height) := by
      intro u hu hc
      rw [setPix_width, setPix_height] at hc
      exact h u (List.mem_cons_of_mem _ hu) hc
    rw [ih _ hrest]
    have hw := h w (List.mem_cons_self _ _)
    by_cases hb : w.1 < m.width ∧ w.2.1 < m.height
    · exact setPix_pix_ne m w.1 w.2.1 X Y w.2.2 (by
        intro hc
        exact hw ⟨hc.1.symm, hc.2.symm, hc.1 ▸ hb.1, hc.2 ▸ hb.2⟩)
    · rw [setPix_oob m _ _ _ hb]

/-- If every write in the list carries the same color `c` and some write
covers `(X, Y)` in-bounds, the fold sets that pixel to `c`. -/
theorem foldl_setPix_covered (ws : List (ℕ × ℕ × RGBA)) (m : Img) (c : RGBA) (X Y : ℕ)
    (hcol : ∀ w ∈ ws, w.2.2 = c)
    (hcov : ∃ w ∈ ws, w.1 = X ∧ w.2.1 = Y ∧ w.1 < m.width ∧ w.2.1 < m.height) :
    (ws.foldl (fun img w => setPix img w.1 w.2.1 w.2.2) m).pix X Y = c := by
  induction ws generalizing m with
  | nil => exact absurd hcov (by simp)
  | cons w rest ih =>
    rw [List.foldl_cons]
    by_cases htail : ∃ u ∈ rest, u.1 = X ∧ u.2.1 = Y ∧ u.1 < m.width ∧ u.2.1 < m.height
    · refine ih (setPix m w.1 w.2.1 w.2.2)
        (fun u hu => hcol u (List.mem_cons_of_mem _ hu)) ?_
      obtain ⟨u, hu, h1, h2, h3, h4⟩ := htail
      exact ⟨u, hu, h1, h2, by rwa [setPix_width], by rwa [setPix_height]⟩
    · obtain ⟨u, hu, h1, h2, h3, h4⟩ := hcov
      rcases List.mem_cons.mp hu with huw | hur
      · subst huw
        have hnc : ∀ v ∈ rest,
            ¬(v.1 = X ∧ v.2.1 = Y ∧ v.1 < (setPix m u.1 u.2.1 u.2.2).width ∧
              v.2.1 < (setPix m u.1 u.2.1 u.2.2).height) := by
          intro v hv hc
          rw [setPix_width, setPix_height] at hc
          exact htail ⟨v, hv, hc⟩
        rw [foldl_setPix_not_covered rest _ X Y hnc]
        subst h1; subst h2
        rw [setPix_pix_eq m u.1 u.2.1 u.2.2 h3 h4, hcol u (List.mem_cons_self _ _)]
      · exact absurd ⟨u, hur, h1, h2, h3, h4⟩ htail

/-- Membership in the write list of `enlargedImage(16, 2)` over a 1×1
source: exactly the coordinates `2 ≤ X, Y ≤ 13`, always with the source
pixel's color. -/
theorem mem_enlargeWrites_one (c : RGBA) (w : ℕ × ℕ × RGBA) :
    w ∈ enlargeWrites (onePixelImg c) 16 2 ↔
      (2 ≤ w.1 ∧ w.1 ≤ 13 ∧ 2 ≤ w.2.1 ∧ w.2.1 ≤ 13 ∧ w.2.2 = c) := by
  obtain ⟨X, Y, col⟩ := w
  simp only [enlargeWrites, onePixelImg, List.mem_flatMap, List.mem_map, List.mem_range,
    List.mem_range'_1]
  constructor
  · rintro ⟨x, hx, y, hy, i, hi, j, hj, heq⟩
    have hx0 : x = 0 := by omega
    have hy0 : y = 0 := by omega
    subst hx0; subst hy0
    obtain ⟨h1, h2, h3⟩ := Prod.mk.injEq .. ▸ heq
    simp only [Prod.mk.injEq] at heq
    refine ⟨?_, ?_, ?_, ?_, ?_⟩ <;> simp_all <;> omega
  · rintro ⟨h1, h2, h3, h4, h5⟩
    exact ⟨0, by omega, 0, by omega, X, by omega, Y, by omega, by simp [h5.symm]⟩

/-- **C6.** `enlargedImage(16, 2)` on a 1×1 source buffer with pixel color
`c` yields a 16×16 buffer whose pixels at indices `2..13` in both axes hold
`c` and whose remaining (border) pixels hold the background color. -/
theorem enlarge_one_pixel (c : RGBA) (X Y : ℕ) (hX : X < 16) (hY : Y < 16) :
    (enlargedImage (some (onePixelImg c)) 16 2).width = 16 ∧
    (enlargedImage (some (onePixelImg c)) 16 2).height = 16 ∧
    (enlargedImage (some (onePixelImg c)) 16 2).pix X Y =
      (if 2 ≤ X ∧ X ≤ 13 ∧ 2 ≤ Y ∧ Y ≤ 13 then c else rgbaZero) := by
  refine ⟨?_, ?_, ?_⟩
  · simp only [enlargedImage, Option.getD_some]
    rw [foldl_setPix_width]; rfl
  · simp only [enlargedImage, Option.getD_some]
    rw [foldl_setPix_height]; rfl
  · simp only [enlargedImage, Option.getD_some]
    by_cases hin : 2 ≤ X ∧ X ≤ 13 ∧ 2 ≤ Y ∧ Y ≤ 13
    · rw [if_pos hin]
      refine foldl_setPix_covered _ _ c X Y ?_ ?_
      · intro w hw
        exact ((mem_enlargeWrites_one c w).mp hw).2.2.2.2
      · refine ⟨(X, Y, c), ?_, rfl, rfl, ?_, ?_⟩
        · exact (mem_enlargeWrites_one c (X, Y, c)).mpr ⟨hin.1, hin.2.1, hin.2.2.1, hin.2.2.2, rfl⟩
        · show X < 16 * (onePixelImg c).width
          simpa [onePixelImg] using hX
        · show Y < 16 * (onePixelImg c).height
          simpa [onePixelImg] using hY
    · rw [if_neg hin]
      rw [foldl_setPix_not_covered]
      · rfl
      · intro w hw hc
        obtain ⟨g1, g2, g3, g4, g5⟩ := (mem_enlargeWrites_one c w).mp hw
        exact hin ⟨hc.1 ▸ g1, hc.1 ▸ g2, hc.2.1 ▸ g3, hc.2.1 ▸ g4⟩

/-- Witness for `enlarge_one_pixel`: an interior pixel gets the source
color and a border pixel stays background, on a concrete 1×1 source. -/
theorem enlarge_one_pixel_witness :
    (enlargedImage (some (onePixelImg (7, 8, 9, 255))) 16 2).pix 5 13 =
      (if 2 ≤ 5 ∧ 5 ≤ 13 ∧ 2 ≤ 13 ∧ 13 ≤ 13 then ((7, 8, 9, 255) : RGBA) else rgbaZero) ∧
    (enlargedImage (some (onePixelImg (7, 8, 9, 255))) 16 2).pix 0 15 =
      (if 2 ≤ 0 ∧ 0 ≤ 13 ∧ 2 ≤ 15 ∧ 15 ≤ 13 then ((7, 8, 9, 255) : RGBA) else rgbaZero) :=
  ⟨(enlarge_one_pixel (7, 8, 9, 255) 5 13 (by decide) (by decide)).2.2,
   (enlarge_one_pixel (7, 8, 9, 255) 0 15 (by decide) (by decide)).2.2⟩

/-! ## Go float64 values

The program's own arithmetic stays in the rationals except for one
division, `sum / float64(n)`, whose divisor can be zero.  `GoFloat` models
the IEEE outcomes reachable there. -/

/-- A Go `float64` restricted to the values this program can produce:
a finite (rational) value, the two infinities, or NaN. -/
inductive GoFloat where
  | finite (q : ℚ)
  | posInf
  | negInf
  | nan
deriving DecidableEq

/-- Go float64 division `a / b` for finite `a`, `b`: IEEE rules give
`±Inf` for a nonzero numerator over zero and NaN for `0 / 0`. -/
def goDiv (a b : ℚ) : GoFloat :=
  if b = 0 then
    if 0 < a then .posInf else if a < 0 then .negInf else .nan
  else .finite (a / b)

/-- Go float64 subtraction on `GoFloat` (IEEE semantics). -/
def GoFloat.sub : GoFloat → GoFloat → GoFloat
  | .nan, _ => .nan
  | _, .nan => .nan
  | .finite a, .finite b => .finite (a - b)
  | .finite _, .posInf => .negInf
  | .finite _, .negInf => .posInf
  | .posInf, .finite _ => .posInf
  | .posInf, .negInf => .posInf
  | .posInf, .posInf => .nan
  | .negInf, .finite _ => .negInf
  | .negInf, .posInf => .negInf
  | .negInf, .negInf => .nan

/-- Go float64 strict `<` on `GoFloat` (IEEE: NaN compares false). -/
def GoFloat.blt : GoFloat → GoFloat → Bool
  | .nan, _ => false
  | _, .nan => false
  | .finite a, .finite b => decide (a < b)
  | .finite _, .posInf => true
  | .finite _, .negInf => false
  | .posInf, _ => false
  | .negInf, .negInf => false
  | .negInf, _ => true

/-! ## The snapshot (`Display` struct, pages.go) -/

/-- The measurement fields of the `Display` struct.  All fields the
program assigns from its own finite arithmetic are `ℚ`;
`LastHourOutdoorTemperature` is assigned from a division with a possibly
zero divisor, so it is a `GoFloat`.  `MesonetLastData` is a `time.Time`
(seconds, zero value = `0`). -/
structure Display where
  Temperature : ℚ
  LastHourTemperature : ℚ
  RelativeHumidity : ℚ
  LastHourRelativeHumidity : ℚ
  OutdoorTemperature : ℚ
  LastHourOutdoorTemperature : GoFloat
  MesonetLastData : ℤ
deriving DecidableEq

/-! ## Trend glyphs (`Display.render`, pages.go)

`render` computes a change byte per measurement: the default `' '` (32,
flat), `25` (falling glyph) when the change is below `-threshold`, `24`
(rising glyph) when above `threshold`. -/

/-- One change byte of `render`: `if chg < -threshold { 25 } else if
chg > threshold { 24 }`, default `' '` = 32. -/
def trendByte (threshold chg : ℚ) : ℕ :=
  if chg < -threshold then 25 else if threshold < chg then 24 else 32

/-- The outdoor change byte of `render`: threshold 1, computed with
float64 semantics because `LastHourOutdoorTemperature` may be non-finite. -/
def outdoorTrendByte (d : Display) : ℕ :=
  let chg := GoFloat.sub (.finite d.OutdoorTemperature) d.LastHourOutdoorTemperature
  if GoFloat.blt chg (.finite (-1)) then 25
  else if GoFloat.blt (.finite 1) chg then 24
  else 32

/-- The three change bytes `render` computes: indoor temperature
(threshold 0.5), relative humidity (threshold 0.5), outdoor temperature
(threshold 1). -/
def renderTrends (d : Display) : ℕ × ℕ × ℕ :=
  (trendByte (1 / 2) (d.Temperature - d.LastHourTemperature),
   trendByte (1 / 2) (d.RelativeHumidity - d.LastHourRelativeHumidity),
   outdoorTrendByte d)

theorem trendByte_char (th chg : ℚ) (hth : 0 ≤ th) :
    (trendByte th chg = 32 ↔ |chg| ≤ th) ∧
    (trendByte th chg = 24 ↔ th < chg) ∧
    (trendByte th chg = 25 ↔ chg < -th) := by
  unfold trendByte
  rw [abs_le]
  by_cases h1 : chg < -th
  · rw [if_pos h1]
    refine ⟨⟨fun h => by omega, fun h => by linarith⟩,
            ⟨fun h => by omega, fun h => by linarith⟩,
            ⟨fun _ => h1, fun _ => rfl⟩⟩
  · rw [if_neg h1]
    by_cases h2 : th < chg
    · rw [if_pos h2]
      refine ⟨⟨fun h => by omega, fun h => by linarith⟩,
              ⟨fun _ => h2, fun _ => rfl⟩,
              ⟨fun h => by omega, fun h => absurd h h1⟩⟩
    · rw [if_neg h2]
      refine ⟨⟨fun _ => ⟨by linarith, by linarith⟩, fun _ => rfl⟩,
              ⟨fun h => by omega, fun h => absurd h h2⟩,
              ⟨fun h => by omega, fun h => absurd h h1⟩⟩

/-- **C3.** The trend glyph computed at render time is flat (32) iff
`|current - trailingMean| ≤ threshold`, rising (24) iff the change exceeds
`threshold`, falling (25) iff it is below `-threshold`, with threshold 0.5
for indoor temperature and relative humidity and 1 for outdoor
temperature (the latter whenever the stored outdoor trailing mean is a
finite value). -/
theorem render_trend_glyphs (d : Display) (m : ℚ)
    (hfin : d.LastHourOutdoorTemperature = .finite m) :
    ((renderTrends d).1 = 32 ↔ |d.Temperature - d.LastHourTemperature| ≤ 1 / 2) ∧
    ((renderTrends d).1 = 24 ↔ 1 / 2 < d.Temperature - d.LastHourTemperature) ∧
    ((renderTrends d).1 = 25 ↔ d.Temperature - d.LastHourTemperature < -(1 / 2)) ∧
    ((renderTrends d).2.1 = 32 ↔ |d.RelativeHumidity - d.LastHourRelativeHumidity| ≤ 1 / 2) ∧
    ((renderTrends d).2.1 = 24 ↔ 1 / 2 < d.RelativeHumidity - d.LastHourRelativeHumidity) ∧
    ((renderTrends d).2.1 = 25 ↔ d.RelativeHumidity - d.LastHourRelativeHumidity < -(1 / 2)) ∧
    ((renderTrends d).2.2 = 32 ↔ |d.OutdoorTemperature - m| ≤ 1) ∧
    ((renderTrends d).2.2 = 24 ↔ 1 < d.OutdoorTemperature - m) ∧
    ((renderTrends d).2.2 = 25 ↔ d.OutdoorTemperature - m < -1) := by
  have t1 := trendByte_char (1 / 2) (d.Temperature - d.LastHourTemperature) (by norm_num)
  have t2 := trendByte_char (1 / 2) (d.RelativeHumidity - d.LastHourRelativeHumidity) (by norm_num)
  have t3 := trendByte_char 1 (d.OutdoorTemperature - m) (by norm_num)
  have houtdoor : (renderTrends d).2.2 = trendByte 1 (d.OutdoorTemperature - m) := by
    simp only [renderTrends, outdoorTrendByte, hfin, GoFloat.sub, GoFloat.blt, trendByte,
      decide_eq_true_eq]
  exact ⟨t1.1, t1.2.1, t1.2.2, t2.1, t2.2.1, t2.2.2,
    houtdoor ▸ t3.1, houtdoor ▸ t3.2.1, houtdoor ▸ t3.2.2⟩

/-- Witness for `render_trend_glyphs` at a concrete snapshot
(current 69, trailing mean 65 indoors: rising). -/
theorem render_trend_glyphs_witness :
    (renderTrends ⟨69, 65, 42, 50, 90, .finite 90, 0⟩).1 = 24 :=
  (render_trend_glyphs ⟨69, 65, 42, 50, 90, .finite 90, 0⟩ 90 rfl).2.1.mpr (by norm_num)

/-! ## `render`'s screen-line slice accesses (pages.go)

`render` allocates `make([][]byte, int(math.Floor(float64(Height)/8.0)))`,
unconditionally assigns `d.screen[0]` and `d.screen[1]`, and the draw loop
`for i := 0; i < Height; i += 8` reads `d.screen[i/8]`. -/

/-- Number of line slots allocated: `int(math.Floor(float64(height)/8.0))`. -/
def screenLineSlots (height : ℕ) : ℕ := height / 8

/-- The loop starts `i = 0, 8, 16, ...` below `height` of the draw loop. -/
def bandStarts (height : ℕ) : List ℕ :=
  (List.range ((height + 7) / 8)).map fun k => 8 * k

/-- Every index used to access `d.screen`: the two unconditional writes to
slots 0 and 1, then the draw loop's reads of slot `i/8` per band. -/
def renderScreenAccesses (height : ℕ) : List ℕ :=
  [0, 1] ++ (bandStarts height).map fun i => i / 8

/-- `render` performs no out-of-range access to `d.screen` for this
display height. -/
def renderScreenInBounds (height : ℕ) : Prop :=
  ∀ a ∈ renderScreenAccesses height, a < screenLineSlots height

instance (height : ℕ) : Decidable (renderScreenInBounds height) := by
  unfold renderScreenInBounds
  infer_instance

/-- **C9.** `render` is free of out-of-range accesses to its screen-line
slice only when the configured height is at least 16: the write to slot 1
requires at least two allocated slots. -/
theorem render_screen_safe_needs_16 (h : ℕ) (hsafe : renderScreenInBounds h) :
    16 ≤ h := by
  have h1 := hsafe 1 (by simp [renderScreenAccesses])
  unfold screenLineSlots at h1
  omega

/-- Witness for `render_screen_safe_needs_16` at the default height 32. -/
theorem render_screen_safe_needs_16_witness :
    renderScreenInBounds 32 ∧ 16 ≤ 32 :=
  ⟨by decide, render_screen_safe_needs_16 32 (by decide)⟩

/-! ## The weather-station fetch job (`Display.updateOutdoorTemperature`, pages.go)

The network round trip (`mesonet.Do`) is an external collaborator; its
outcome is a parameter.  The parts of the decoded response the job reads
are `res.Response.DataVars["tair"].FloatData` and
`res.Response.Coords["time"].TimeData`. -/

/-- The two series of the mesonet response that the job reads. -/
structure SeriesResponse where
  /-- `res.Response.DataVars["tair"].FloatData` -/
  tair : List ℚ
  /-- `res.Response.Coords["time"].TimeData` -/
  times : List ℤ
deriving DecidableEq

/-- The loop-local variables of `updateOutdoorTemperature`:
`var n int; var sum, last float64; var lastUpdate time.Time`. -/
structure OutdoorState where
  n : ℕ
  sum : ℚ
  last : ℚ
  lastUpdate : ℤ
deriving DecidableEq

/-- Outcome of one fetch job: success with the new snapshot, an error
tagged for the aggregator, or a runtime panic (out-of-range index). -/
inductive JobResult where
  | ok (d : Display)
  | fail (e : String)
  | crash
deriving DecidableEq

/-- The loop `for i, t := range tair` of `updateOutdoorTemperature`: for a
non-zero sample the code adds it to `sum`, records it as `last`, and reads
`TimeData[i]` (a panic if that index is out of range), keeping it as
`lastUpdate` when non-zero.  `n` is never modified, exactly as in the
source. -/
def outdoorLoop (times : List ℤ) : ℕ → List ℚ → OutdoorState → Option OutdoorState
  | _, [], s => some s
  | i, t :: ts, s =>
    if t ≠ 0 then
      match times[i]? with
      | none => none
      | some u =>
        outdoorLoop times (i + 1) ts
          { n := s.n, sum := s.sum + t, last := t,
            lastUpdate := if ¬u = 0 then u else s.lastUpdate }
    else outdoorLoop times (i + 1) ts s

/-- `Display.updateOutdoorTemperature` (pages.go): skip (reporting
success, touching nothing, performing no network call) while the last
observed data timestamp is less than 6 minutes (360 s) old; otherwise
propagate a fetch error, reject an empty `tair` series, and store the
last non-zero sample, `sum / float64(n)`, and the last non-zero
timestamp. -/
def updateOutdoorTemperature (d : Display) (now : ℤ)
    (fetch : Except String SeriesResponse) : JobResult :=
  if now - d.MesonetLastData < 360 then .ok d
  else
    match fetch with
    | .error e => .fail ("do: " ++ e)
    | .ok res =>
      if res.tair.length = 0 then .fail "no data points returned"
      else
        match outdoorLoop res.times 0 res.tair ⟨0, 0, 0, 0⟩ with
        | none => .crash
        | some s =>
          .ok { d with OutdoorTemperature := s.last,
                       LastHourOutdoorTemperature := goDiv s.sum (s.n : ℚ),
                       MesonetLastData := s.lastUpdate }

/-- Full characterization of the sample loop when every needed timestamp
index exists: it never touches `n`, accumulates the sum of the non-zero
samples, and keeps the last non-zero sample. -/
theorem outdoorLoop_total (times : List ℤ) (ts : List ℚ) (i : ℕ) (s : OutdoorState)
    (hlen : i + ts.length ≤ times.length) :
    ∃ s', outdoorLoop times i ts s = some s' ∧ s'.n = s.n ∧
      s'.last = (ts.filter fun t => decide (t ≠ 0)).getLastD s.last ∧
      s'.sum = s.sum + (ts.filter fun t => decide (t ≠ 0)).sum := by
  induction ts generalizing i s with
  | nil => exact ⟨s, rfl, rfl, rfl, by simp⟩
  | cons t ts ih =>
    rw [List.length_cons] at hlen
    by_cases ht : t = 0
    · obtain ⟨s', h1, h2, h3, h4⟩ := ih (i + 1) s (by omega)
      refine ⟨s', ?_, h2, ?_, ?_⟩
      · rw [outdoorLoop, if_neg (by simpa using ht)]
        exact h1
      · rw [h3, List.filter_cons_of_neg (by simpa using ht)]
      · rw [h4, List.filter_cons_of_neg (by simpa using ht)]
    · have hi : i < times.length := by omega
      obtain ⟨s', h1, h2, h3, h4⟩ :=
        ih (i + 1) ⟨s.n, s.sum + t, t,
          if ¬times[i] = 0 then times[i] else s.lastUpdate⟩ (by omega)
      refine ⟨s', ?_, h2, ?_, ?_⟩
      · rw [outdoorLoop, if_pos ht, List.getElem?_eq_getElem hi]
        exact h1
      · rw [h3, List.filter_cons_of_pos (by simpa using ht), List.getLastD_cons]
      · rw [h4, List.filter_cons_of_pos (by simpa using ht), List.sum_cons]
        push_cast
        ring

/-- **C4.** While the stored last-data timestamp is less than 6 minutes
old, the weather-station job reports success and changes nothing; the
conclusion holds for every possible fetch outcome, i.e. it is independent
of the network. -/
theorem outdoor_rate_limit_skip (d : Display) (now : ℤ)
    (fetch : Except String SeriesResponse)
    (h : now - d.MesonetLastData < 360) :
    updateOutdoorTemperature d now fetch = .ok d := by
  unfold updateOutdoorTemperature
  rw [if_pos h]

/-- Witness for `outdoor_rate_limit_skip`: a snapshot whose mesonet data
is 100 s old skips the fetch (even a failing fetch) and stays unchanged. -/
theorem outdoor_rate_limit_skip_witness :
    updateOutdoorTemperature ⟨0, 0, 0, 0, 0, .finite 0, 0⟩ 100 (.error "unreachable") =
      .ok ⟨0, 0, 0, 0, 0, .finite 0, 0⟩ :=
  outdoor_rate_limit_skip ⟨0, 0, 0, 0, 0, .finite 0, 0⟩ 100 (.error "unreachable") (by decide)

/-- **C5.** When the job runs (not rate-limited), the fetch succeeds, the
timestamp series covers the sample series, and at least one sample is
non-zero, the stored latest outdoor value is the last non-zero entry of
the series (trailing zeros excluded). -/
theorem outdoor_latest_last_nonzero (d : Display) (now : ℤ) (r : SeriesResponse)
    (hskip : ¬ now - d.MesonetLastData < 360)
    (hlen : r.tair.length ≤ r.times.length)
    (hnz : (r.tair.filter fun t => decide (t ≠ 0)) ≠ []) :
    ∃ d2, updateOutdoorTemperature d now (.ok r) = .ok d2 ∧
      d2.OutdoorTemperature = (r.tair.filter fun t => decide (t ≠ 0)).getLastD 0 := by
  obtain ⟨s', h1, h2, h3, h4⟩ :=
    outdoorLoop_total r.times r.tair 0 ⟨0, 0, 0, 0⟩ (by simpa using hlen)
  have hne : ¬ r.tair.length = 0 := by
    intro h0
    rw [List.length_eq_zero] at h0
    exact hnz (by simp [h0])
  have heq : updateOutdoorTemperature d now (.ok r) =
      .ok { d with
              OutdoorTemperature := s'.last
              LastHourOutdoorTemperature := goDiv s'.sum (s'.n : ℚ)
              MesonetLastData := s'.lastUpdate } := by
    unfold updateOutdoorTemperature
    rw [if_neg hskip]
    simp only [if_neg hne, h1]
  exact ⟨_, heq, by simpa using h3⟩

/-- Witness for `outdoor_latest_last_nonzero`: series `[10, 0, 20]`
stores latest value 20. -/
theorem outdoor_latest_last_nonzero_witness :
    ∃ d2, updateOutdoorTemperature ⟨0, 0, 0, 0, 0, .finite 0, 0⟩ 1000
        (.ok ⟨[10, 0, 20], [1, 2, 3]⟩) = .ok d2 ∧
      d2.OutdoorTemperature =
        (([10, 0, 20] : List ℚ).filter fun t => decide (t ≠ 0)).getLastD 0 :=
  outdoor_latest_last_nonzero ⟨0, 0, 0, 0, 0, .finite 0, 0⟩ 1000
    ⟨[10, 0, 20], [1, 2, 3]⟩ (by decide) (by decide) (by decide)

/-! ## The refresh cycle (`Display.update`, pages.go)

`update` launches five named fetch jobs concurrently; each job either
mutates its designated snapshot fields under the write lock or reports an
error wrapped with the job's name (`fmt.Errorf("%s: %w", op, err)`).  The
jobs write disjoint field sets, and the only field a job reads
(`MesonetLastData`, by the outdoor job) is written by no other job, so the
concurrent execution is embedded as a sequential fold in launch order.
The influx round trips themselves are external; each is a parameter of
type `Except String ℚ` standing for the outcome of `queryOneInflux`
(which assigns the fetched value to the job's target field).  Context
expiry is not modelled: all jobs report within the cycle deadline. -/

/-- `Display.updateTemperature`: assign the fetched value to
`Temperature`, or wrap the query error as `query: ...`. -/
def updateTemperature (d : Display) (r : Except String ℚ) : JobResult :=
  match r with
  | .ok v => .ok { d with Temperature := v }
  | .error e => .fail ("query: " ++ e)

/-- `Display.updateLastHourTemperature`. -/
def updateLastHourTemperature (d : Display) (r : Except String ℚ) : JobResult :=
  match r with
  | .ok v => .ok { d with LastHourTemperature := v }
  | .error e => .fail ("query: " ++ e)

/-- `Display.updateRelativeHumidity`. -/
def updateRelativeHumidity (d : Display) (r : Except String ℚ) : JobResult :=
  match r with
  | .ok v => .ok { d with RelativeHumidity := v }
  | .error e => .fail ("query: " ++ e)

/-- `Display.updateLastHourRelativeHumidity`. -/
def updateLastHourRelativeHumidity (d : Display) (r : Except String ℚ) : JobResult :=
  match r with
  | .ok v => .ok { d with LastHourRelativeHumidity := v }
  | .error e => .fail ("query: " ++ e)

/-- The five named jobs of `Display.update`, in launch order. -/
def displayJobs (now : ℤ) (rT rLhT rRh rLhRh : Except String ℚ)
    (mes : Except String SeriesResponse) : List (String × (Display → JobResult)) :=
  [("get temperature", fun d => updateTemperature d rT),
   ("get last hour temperature", fun d => updateLastHourTemperature d rLhT),
   ("get relative humidity", fun d => updateRelativeHumidity d rRh),
   ("get last hour relative humidity", fun d => updateLastHourRelativeHumidity d rLhRh),
   ("get outdoor temperature", fun d => updateOutdoorTemperature d now mes)]

/-- Run the jobs: a success replaces the snapshot, a failure keeps it and
records the error wrapped with the job name, a panic kills the process
(`none`). -/
def runJobs : List (String × (Display → JobResult)) → Display → Option (Display × List String)
  | [], d => some (d, [])
  | (name, f) :: rest, d =>
    match f d with
    | .crash => none
    | .fail e =>
      match runJobs rest d with
      | none => none
      | some (d', errs) => some (d', (name ++ ": " ++ e) :: errs)
    | .ok d2 => runJobs rest d2

/-- `Display.update`: run all five jobs, and if any failed, combine the
collected errors into `fmt.Errorf("%d errors: %v", len(errs),
strings.Join(strs, "\n"))`. -/
def update (d : Display) (now : ℤ) (rT rLhT rRh rLhRh : Except String ℚ)
    (mes : Except String SeriesResponse) : Option (Display × Option String) :=
  match runJobs (displayJobs now rT rLhT rRh rLhRh mes) d with
  | none => none
  | some (d', errs) =>
    some (d',
      if 0 < errs.length then
        some (toString errs.length ++ " errors: " ++ String.intercalate "\n" errs)
      else none)

/-- The five job outcomes as observed against the initial snapshot (each
job reads only fields no other job writes, so these are the outcomes of
the concurrent run). -/
def jobOutcomes (d : Display) (now : ℤ) (rT rLhT rRh rLhRh : Except String ℚ)
    (mes : Except String SeriesResponse) : List JobResult :=
  (displayJobs now rT rLhT rRh rLhRh mes).map fun j => j.2 d

/-- Did the job report an error? -/
def JobResult.isFail : JobResult → Bool
  | .fail _ => true
  | _ => false

/-- `updateOutdoorTemperature` reads only `MesonetLastData` and writes only
the three outdoor fields, so running it after unrelated fields changed
gives the same outcome transported to the changed snapshot. -/
theorem updateOutdoorTemperature_congr (d4 d : Display) (now : ℤ)
    (mes : Except String SeriesResponse)
    (hm : d4.MesonetLastData = d.MesonetLastData)
    (ho : d4.OutdoorTemperature = d.OutdoorTemperature)
    (hl : d4.LastHourOutdoorTemperature = d.LastHourOutdoorTemperature) :
    updateOutdoorTemperature d4 now mes =
      match updateOutdoorTemperature d now mes with
      | .ok d2 => .ok { d4 with OutdoorTemperature := d2.OutdoorTemperature,
                                LastHourOutdoorTemperature := d2.LastHourOutdoorTemperature,
                                MesonetLastData := d2.MesonetLastData }
      | r => r := by
  unfold updateOutdoorTemperature
  rw [hm]
  by_cases h : now - d.MesonetLastData < 360
  · rw [if_pos h, if_pos h]
    show JobResult.ok d4 = JobResult.ok { d4 with
      OutdoorTemperature := d.OutdoorTemperature
      LastHourOutdoorTemperature := d.LastHourOutdoorTemperature
      MesonetLastData := d.MesonetLastData }
    rw [← ho, ← hl, ← hm]
  · rw [if_neg h, if_neg h]
    cases mes with
    | error e => rfl
    | ok res =>
      by_cases h0 : res.tair.length = 0
      · simp [h0]
      · simp only [if_neg h0]
        cases outdoorLoop res.times 0 res.tair ⟨0, 0, 0, 0⟩ with
        | none => rfl
        | some s => rfl

/-- The value a fetch outcome leaves in its target field: the fetched
value on success, the previous value on failure. -/
def exceptD (r : Except String ℚ) (q : ℚ) : ℚ :=
  match r with
  | .ok v => v
  | .error _ => q

/-- The wrapped error list one influx job contributes. -/
def influxErr (op : String) (r : Except String ℚ) : List String :=
  match r with
  | .ok _ => []
  | .error e => [op ++ ": " ++ ("query: " ++ e)]

/-- The snapshot after the four influx jobs: each successful job's field
updated, each failed job's field untouched. -/
def influxApply (d : Display) (rT rLhT rRh rLhRh : Except String ℚ) : Display :=
  { d with
      Temperature := exceptD rT d.Temperature
      LastHourTemperature := exceptD rLhT d.LastHourTemperature
      RelativeHumidity := exceptD rRh d.RelativeHumidity
      LastHourRelativeHumidity := exceptD rLhRh d.LastHourRelativeHumidity }

/-- The wrapped errors of the four influx jobs, in launch order. -/
def influxErrs (rT rLhT rRh rLhRh : Except String ℚ) : List String :=
  influxErr "get temperature" rT ++ influxErr "get last hour temperature" rLhT ++
    influxErr "get relative humidity" rRh ++
      influxErr "get last hour relative humidity" rLhRh

/-- `updateOutdoorTemperature_congr` specialized to a literal snapshot
whose outdoor fields are still those of `d`. -/
theorem updateOutdoorTemperature_mk (d : Display) (now : ℤ)
    (mes : Except String SeriesResponse) (a b c e : ℚ) :
    updateOutdoorTemperature
        ⟨a, b, c, e, d.OutdoorTemperature, d.LastHourOutdoorTemperature, d.MesonetLastData⟩
        now mes =
      match updateOutdoorTemperature d now mes with
      | .ok d2 => .ok ⟨a, b, c, e, d2.OutdoorTemperature, d2.LastHourOutdoorTemperature,
          d2.MesonetLastData⟩
      | r => r :=
  updateOutdoorTemperature_congr
    ⟨a, b, c, e, d.OutdoorTemperature, d.LastHourOutdoorTemperature, d.MesonetLastData⟩
    d now mes rfl rfl rfl

/-- Closed-form behavior of the five-job run: the influx jobs update their
disjoint fields and contribute their wrapped errors; the outdoor job's
outcome is merged last. -/
theorem runJobs_displayJobs (d : Display) (now : ℤ)
    (rT rLhT rRh rLhRh : Except String ℚ) (mes : Except String SeriesResponse) :
    runJobs (displayJobs now rT rLhT rRh rLhRh mes) d =
      match updateOutdoorTemperature d now mes with
      | .crash => none
      | .ok d2 => some ({ influxApply d rT rLhT rRh rLhRh with
            OutdoorTemperature := d2.OutdoorTemperature
            LastHourOutdoorTemperature := d2.LastHourOutdoorTemperature
            MesonetLastData := d2.MesonetLastData }, influxErrs rT rLhT rRh rLhRh)
      | .fail e => some (influxApply d rT rLhT rRh rLhRh,
          influxErrs rT rLhT rRh rLhRh ++ ["get outdoor temperature: " ++ e]) := by
  rcases rT with e1 | v1 <;> rcases rLhT with e2 | v2 <;> rcases rRh with e3 | v3 <;>
    rcases rLhRh with e4 | v4 <;>
  · simp only [displayJobs, runJobs, updateTemperature, updateLastHourTemperature,
      updateRelativeHumidity, updateLastHourRelativeHumidity]
    rw [updateOutdoorTemperature_mk]
    cases updateOutdoorTemperature d now mes with
    | ok d2 => simp [influxApply, influxErrs, influxErr, exceptD]
    | fail e5 => simp [influxApply, influxErrs, influxErr, exceptD]
    | crash => simp [influxApply, influxErrs, influxErr, exceptD]

/-- **C2.** If exactly one of the five concurrently run fetch jobs fails
within the cycle (and none panics), `update` still leaves every successful
job's writes in the snapshot — no rollback — and returns one combined
error reporting exactly 1 failure and containing the failing job's name;
if no job fails, `update` returns no error. -/
theorem update_partial_failure (d : Display) (now : ℤ)
    (rT rLhT rRh rLhRh : Except String ℚ) (mes : Except String SeriesResponse)
    (hnc : updateOutdoorTemperature d now mes ≠ .crash) :
    (((jobOutcomes d now rT rLhT rRh rLhRh mes).filter JobResult.isFail).length = 1 →
      ∃ d' nm e f,
        update d now rT rLhT rRh rLhRh mes =
            some (d', some (toString (1 : ℕ) ++ " errors: " ++ (nm ++ ": " ++ e))) ∧
        (nm, f) ∈ displayJobs now rT rLhT rRh rLhRh mes ∧
        f d = .fail e ∧
        (∀ v, rT = .ok v → d'.Temperature = v) ∧
        (∀ v, rLhT = .ok v → d'.LastHourTemperature = v) ∧
        (∀ v, rRh = .ok v → d'.RelativeHumidity = v) ∧
        (∀ v, rLhRh = .ok v → d'.LastHourRelativeHumidity = v) ∧
        (∀ dd, updateOutdoorTemperature d now mes = .ok dd →
          d'.OutdoorTemperature = dd.OutdoorTemperature ∧
          d'.LastHourOutdoorTemperature = dd.LastHourOutdoorTemperature ∧
          d'.MesonetLastData = dd.MesonetLastData)) ∧
    (((jobOutcomes d now rT rLhT rRh rLhRh mes).filter JobResult.isFail).length = 0 →
      ∃ d', update d now rT rLhT rRh rLhRh mes = some (d', none)) := by
  have hrj := runJobs_displayJobs d now rT rLhT rRh rLhRh mes
  cases hoc : updateOutdoorTemperature d now mes with
  | crash => exact absurd hoc hnc
  | ok d2 =>
    rw [hoc] at hrj
    constructor
    · intro h1
      rcases rT with e1 | v1 <;> rcases rLhT with e2 | v2 <;> rcases rRh with e3 | v3 <;>
        rcases rLhRh with e4 | v4 <;>
          simp [jobOutcomes, displayJobs, hoc, updateTemperature, updateLastHourTemperature,
            updateRelativeHumidity, updateLastHourRelativeHumidity, JobResult.isFail] at h1
      · refine ⟨⟨d.Temperature, v2, v3, v4, d2.OutdoorTemperature,
          d2.LastHourOutdoorTemperature, d2.MesonetLastData⟩,
          "get temperature", "query: " ++ e1,
          fun dd => updateTemperature dd (.error e1), ?_, ?_, rfl, ?_, ?_, ?_, ?_, ?_⟩
        · simp [update, hrj, influxErrs, influxErr, influxApply, exceptD,
            String.intercalate, String.intercalate.go]
        · simp [displayJobs]
        · simp
        · intro v hv; rw [Except.ok.injEq] at hv; subst hv; rfl
        · intro v hv; rw [Except.ok.injEq] at hv; subst hv; rfl
        · intro v hv; rw [Except.ok.injEq] at hv; subst hv; rfl
        · intro dd h; rw [JobResult.ok.injEq] at h; subst h; exact ⟨rfl, rfl, rfl⟩
      · refine ⟨⟨v1, d.LastHourTemperature, v3, v4, d2.OutdoorTemperature,
          d2.LastHourOutdoorTemperature, d2.MesonetLastData⟩,
          "get last hour temperature", "query: " ++ e2,
          fun dd => updateLastHourTemperature dd (.error e2), ?_, ?_, rfl, ?_, ?_, ?_, ?_, ?_⟩
        · simp [update, hrj, influxErrs, influxErr, influxApply, exceptD,
            String.intercalate, String.intercalate.go]
        · simp [displayJobs]
        · intro v hv; rw [Except.ok.injEq] at hv; subst hv; rfl
        · simp
        · intro v hv; rw [Except.ok.injEq] at hv; subst hv; rfl
        · intro v hv; rw [Except.ok.injEq] at hv; subst hv; rfl
        · intro dd h; rw [JobResult.ok.injEq] at h; subst h; exact ⟨rfl, rfl, rfl⟩
      · refine ⟨⟨v1, v2, d.RelativeHumidity, v4, d2.OutdoorTemperature,
          d2.LastHourOutdoorTemperature, d2.MesonetLastData⟩,
          "get relative humidity", "query: " ++ e3,
          fun dd => updateRelativeHumidity dd (.error e3), ?_, ?_, rfl, ?_, ?_, ?_, ?_, ?_⟩
        · simp [update, hrj, influxErrs, influxErr, influxApply, exceptD,
            String.intercalate, String.intercalate.go]
        · simp [displayJobs]
        · intro v hv; rw [Except.ok.injEq] at hv; subst hv; rfl
        · intro v hv; rw [Except.ok.injEq] at hv; subst hv; rfl
        · simp
        · intro v hv; rw [Except.ok.injEq] at hv; subst hv; rfl
        · intro dd h; rw [JobResult.ok.injEq] at h; subst h; exact ⟨rfl, rfl, rfl⟩
      · refine ⟨⟨v1, v2, v3, d.LastHourRelativeHumidity, d2.OutdoorTemperature,
          d2.LastHourOutdoorTemperature, d2.MesonetLastData⟩,
          "get last hour relative humidity", "query: " ++ e4,
          fun dd => updateLastHourRelativeHumidity dd (.error e4), ?_, ?_, rfl, ?_, ?_, ?_, ?_, ?_⟩
        · simp [update, hrj, influxErrs, influxErr, influxApply, exceptD,
            String.intercalate, String.intercalate.go]
        · simp [displayJobs]
        · intro v hv; rw [Except.ok.injEq] at hv; subst hv; rfl
        · intro v hv; rw [Except.ok.injEq] at hv; subst hv; rfl
        · intro v hv; rw [Except.ok.injEq] at hv; subst hv; rfl
        · simp
        · intro dd h; rw [JobResult.ok.injEq] at h; subst h; exact ⟨rfl, rfl, rfl⟩
    · intro h0
      rcases rT with e1 | v1 <;> rcases rLhT with e2 | v2 <;> rcases rRh with e3 | v3 <;>
        rcases rLhRh with e4 | v4 <;>
          simp [jobOutcomes, displayJobs, hoc, updateTemperature, updateLastHourTemperature,
            updateRelativeHumidity, updateLastHourRelativeHumidity, JobResult.isFail] at h0
      exact ⟨⟨v1, v2, v3, v4, d2.OutdoorTemperature, d2.LastHourOutdoorTemperature,
        d2.MesonetLastData⟩, by
          simp [update, hrj, influxErrs, influxErr, influxApply, exceptD]⟩
  | fail e5 =>
    rw [hoc] at hrj
    constructor
    · intro h1
      rcases rT with e1 | v1 <;> rcases rLhT with e2 | v2 <;> rcases rRh with e3 | v3 <;>
        rcases rLhRh with e4 | v4 <;>
          simp [jobOutcomes, displayJobs, hoc, updateTemperature, updateLastHourTemperature,
            updateRelativeHumidity, updateLastHourRelativeHumidity, JobResult.isFail] at h1
      refine ⟨⟨v1, v2, v3, v4, d.OutdoorTemperature, d.LastHourOutdoorTemperature,
        d.MesonetLastData⟩,
        "get outdoor temperature", e5,
        fun dd => updateOutdoorTemperature dd now mes, ?_, ?_, hoc, ?_, ?_, ?_, ?_, ?_⟩
      · simp [update, hrj, influxErrs, influxErr, influxApply, exceptD,
          String.intercalate, String.intercalate.go]
      · simp [displayJobs]
      · intro v hv; rw [Except.ok.injEq] at hv; subst hv; rfl
      · intro v hv; rw [Except.ok.injEq] at hv; subst hv; rfl
      · intro v hv; rw [Except.ok.injEq] at hv; subst hv; rfl
      · intro v hv; rw [Except.ok.injEq] at hv; subst hv; rfl
      · intro dd h; exact absurd h (by simp)
    · intro h0
      rcases rT with e1 | v1 <;> rcases rLhT with e2 | v2 <;> rcases rRh with e3 | v3 <;>
        rcases rLhRh with e4 | v4 <;>
          simp [jobOutcomes, displayJobs, hoc, updateTemperature, updateLastHourTemperature,
            updateRelativeHumidity, updateLastHourRelativeHumidity, JobResult.isFail] at h0

/-- Witness for `update_partial_failure`: with the first job failing
(`boom`), the other four succeeding (outdoor via the rate-limit skip),
`update` keeps the three fetched values and reports
`1 errors: get temperature: query: boom`. -/
theorem update_partial_failure_witness :
    ∃ d' nm e f,
      update ⟨0, 0, 0, 0, 0, .finite 0, 0⟩ 100 (.error "boom") (.ok 5) (.ok 6) (.ok 7)
          (.ok ⟨[], []⟩) =
          some (d', some (toString (1 : ℕ) ++ " errors: " ++ (nm ++ ": " ++ e))) ∧
      (nm, f) ∈ displayJobs 100 (.error "boom") (.ok 5) (.ok 6) (.ok 7) (.ok ⟨[], []⟩) ∧
      f ⟨0, 0, 0, 0, 0, .finite 0, 0⟩ = .fail e ∧
      (∀ v, (Except.error "boom" : Except String ℚ) = .ok v →
        d'.Temperature = v) ∧
      (∀ v, (Except.ok 5 : Except String ℚ) = .ok v → d'.LastHourTemperature = v) ∧
      (∀ v, (Except.ok 6 : Except String ℚ) = .ok v → d'.RelativeHumidity = v) ∧
      (∀ v, (Except.ok 7 : Except String ℚ) = .ok v → d'.LastHourRelativeHumidity = v) ∧
      (∀ dd, updateOutdoorTemperature ⟨0, 0, 0, 0, 0, .finite 0, 0⟩ 100 (.ok ⟨[], []⟩) =
          .ok dd →
        d'.OutdoorTemperature = dd.OutdoorTemperature ∧
        d'.LastHourOutdoorTemperature = dd.LastHourOutdoorTemperature ∧
        d'.MesonetLastData = dd.MesonetLastData) :=
  (update_partial_failure ⟨0, 0, 0, 0, 0, .finite 0, 0⟩ 100 (.error "boom") (.ok 5) (.ok 6)
    (.ok 7) (.ok ⟨[], []⟩) (by decide)).1 (by decide)

/-- **C1 (divergence).** On the series `[10, 20]` (both entries non-zero,
data stale enough for the job to run), the job stores `+Inf` as the
trailing outdoor mean, not the mean `15` of the non-zero entries: `n` is
never incremented, so the code divides the sum by zero. -/
theorem outdoor_trailing_mean_div_by_zero :
    updateOutdoorTemperature ⟨0, 0, 0, 0, 0, .finite 0, 0⟩ 1000
        (.ok ⟨[10, 20], [5, 6]⟩) =
      .ok ⟨0, 0, 0, 0, 20, .posInf, 6⟩ ∧
    GoFloat.posInf ≠ .finite ((10 + 20) / 2) := by
  refine ⟨?_, by simp⟩
  norm_num [updateOutdoorTemperature, outdoorLoop, goDiv]

/-! ## HTTP endpoints (`ServeImage`, `ServeLargePNG`, pages.go)

PNG/BMP encoding are external library calls; encoding a valid buffer into
an in-memory `bytes.Buffer` cannot fail, so an encoded body is modelled as
a tagged value.  The `.txt` encoder is the repo's own closure and is
modelled in full. -/

/-- A response body: a PNG or BMP encoding of a buffer, or plain text. -/
inductive HttpBody where
  | pngBytes (m : Img)
  | bmpBytes (m : Img)
  | textBody (s : String)

/-- The `.txt` encoder of `ServeImage`: one `"x y"` line per pixel whose
r, g, b are not all zero, in x-major order. -/
def textEncode (m : Img) : String :=
  String.join ((List.range m.width).flatMap fun x =>
    (List.range m.height).filterMap fun y =>
      let p := m.pix x y
      if p.1 ≠ 0 ∨ p.2.1 ≠ 0 ∨ p.2.2.1 ≠ 0 then
        some (toString x ++ " " ++ toString y ++ "\n")
      else none)

/-- `Display.ServeImage` (pages.go): pick the encoder and content type from
the request path's extension (default PNG); if no image has been rendered
yet, answer 500 with `http.Error`'s plain-text body (the error message
plus a newline); otherwise answer 200 with the encoded buffer. -/
def serveImage (img : Option Img) (ext : String) : ℕ × String × HttpBody :=
  let ct := if ext = ".bmp" then "image/bmp"
    else if ext = ".txt" then "text/plain" else "image/png"
  match img with
  | none => (500, "text/plain; charset=utf-8",
      .textBody "image has not been rendered yet\n")
  | some m => (200, ct,
      if ext = ".bmp" then .bmpBytes m
      else if ext = ".txt" then .textBody (textEncode m)
      else .pngBytes m)

/-- `Display.ServeLargePNG` (pages.go): always 200 with the PNG encoding of
the 16×-enlarged published image (`enlargedImage` substitutes a blank 1×1
buffer when none is published). -/
def serveLargePNG (img : Option Img) : ℕ × String × HttpBody :=
  (200, "image/png", .pngBytes (enlargedImage img 16 2))

/-- **C8.** Before any render has completed, `/index.png`, `/index.bmp`
and `/index.txt` all answer 500 with a plain-text error body; once a
buffer exists they answer 200 with the buffer in the requested encoding. -/
theorem serve_image_endpoints :
    serveImage none ".png" =
      (500, "text/plain; charset=utf-8", .textBody "image has not been rendered yet\n") ∧
    serveImage none ".bmp" =
      (500, "text/plain; charset=utf-8", .textBody "image has not been rendered yet\n") ∧
    serveImage none ".txt" =
      (500, "text/plain; charset=utf-8", .textBody "image has not been rendered yet\n") ∧
    (∀ m, serveImage (some m) ".png" = (200, "image/png", .pngBytes m)) ∧
    (∀ m, serveImage (some m) ".bmp" = (200, "image/bmp", .bmpBytes m)) ∧
    (∀ m, serveImage (some m) ".txt" = (200, "text/plain", .textBody (textEncode m))) := by
  refine ⟨rfl, rfl, rfl, fun m => ?_, fun m => ?_, fun m => ?_⟩ <;> rfl

/-- **C10.** Before any render has completed, `/large.png` does not fail:
it answers 200 with the PNG of the enlarged blank placeholder, a 16×16
buffer. -/
theorem serve_large_png_placeholder :
    serveLargePNG none = (200, "image/png", .pngBytes (enlargedImage none 16 2)) ∧
    (enlargedImage none 16 2).width = 16 ∧
    (enlargedImage none 16 2).height = 16 := by
  refine ⟨rfl, ?_, ?_⟩
  · simp only [enlargedImage, Option.getD_none]
    rw [foldl_setPix_width]; rfl
  · simp only [enlargedImage, Option.getD_none]
    rw [foldl_setPix_height]; rfl

/-! ## The mesonet response decoder (`DataVar.UnmarshalJSON`, mesonet.go)

The decoder receives the generically unmarshalled `RawDataVar` (attrs,
dims, and `data` as a list of untyped JSON values) and infers the typed
series from the shape of `data`. -/

namespace mesonet

/-- An untyped JSON value as `encoding/json` delivers it into
`[]interface{}`: a string, a number (`float64`), a nested array, or
anything else (object, bool, null). -/
inductive JVal where
  | str (s : String)
  | num (q : ℚ)
  | arr (elems : List JVal)
  | other

/-- `Attr`: the per-variable metadata (`long_name`, `scale_factor`,
`units`). -/
structure Attr where
  longName : String
  scaleFactor : ℚ
  units : String

/-- `RawDataVar`: the generically decoded variable. -/
structure RawDataVar where
  attrs : Attr
  data : List JVal
  dims : List String

/-- A parsed timestamp of Go layout `"20060102T1504"`. -/
structure MesoTime where
  year : ℕ
  month : ℕ
  day : ℕ
  hour : ℕ
  minute : ℕ

/-- `DataVar`: the shape-inferred typed variable.  `stringData` is never
populated by the decoder, exactly as in the source. -/
structure DataVar where
  floatData : List ℚ
  stringData : List String
  timeData : List MesoTime
  rawData : List JVal
  attrs : Attr
  dims : List String

/-- Days of a month, with Gregorian leap years (as `time.Parse`
validates). -/
def daysInMonth (year month : ℕ) : ℕ :=
  if month = 2 then
    if year % 4 = 0 ∧ (¬year % 100 = 0 ∨ year % 400 = 0) then 29 else 28
  else if month = 4 ∨ month = 6 ∨ month = 9 ∨ month = 11 then 30
  else 31

/-- The numeric value of a digit character. -/
def digitVal (c : Char) : ℕ := c.toNat - 48

/-- Go `time.Parse("20060102T1504", s)`: thirteen characters, eight
digits, a literal `T`, four digits, with calendar-valid fields. -/
def parseMesoTime (s : String) : Option MesoTime :=
  match s.toList with
  | [y1, y2, y3, y4, m1, m2, d1, d2, t, h1, h2, n1, n2] =>
    if t = 'T' ∧ y1.isDigit ∧ y2.isDigit ∧ y3.isDigit ∧ y4.isDigit ∧
        m1.isDigit ∧ m2.isDigit ∧ d1.isDigit ∧ d2.isDigit ∧
        h1.isDigit ∧ h2.isDigit ∧ n1.isDigit ∧ n2.isDigit then
      let year := ((digitVal y1 * 10 + digitVal y2) * 10 + digitVal y3) * 10 + digitVal y4
      let month := digitVal m1 * 10 + digitVal m2
      let day := digitVal d1 * 10 + digitVal d2
      let hour := digitVal h1 * 10 + digitVal h2
      let minute := digitVal n1 * 10 + digitVal n2
      if 1 ≤ month ∧ month ≤ 12 ∧ 1 ≤ day ∧ day ≤ daysInMonth year month ∧
          hour ≤ 23 ∧ minute ≤ 59 then
        some ⟨year, month, day, hour, minute⟩
      else none
    else none
  | _ => none

/-- The `time` branch of the decoder: every element must be a string and
must parse; the first offender aborts with an error. -/
def decodeTimes : List JVal → Except String (List MesoTime)
  | [] => .ok []
  | v :: rest =>
    match v with
    | .str s =>
      match parseMesoTime s with
      | some t =>
        match decodeTimes rest with
        | .ok ts => .ok (t :: ts)
        | .error e => .error e
      | none => .error ("invalid time " ++ s)
    | _ => .error "invalid time: not a string"

/-- Outcome of `DataVar.UnmarshalJSON`: a decoded variable, a decode
error, or a runtime panic. -/
inductive UnmarshalResult where
  | ok (v : DataVar)
  | err (e : String)
  | crash

/-- `DataVar.UnmarshalJSON` (mesonet.go) after the generic unmarshal into
`RawDataVar`: attrs, dims and the raw data are always kept; empty data is
accepted as-is; a variable whose `long_name` is `time` must be a string
array of timestamps; otherwise, if the first element is a nested array
whose first element is a number, the first row becomes the scaled float
series (non-numbers as 0) — the code indexes `first[0]` without a length
check, so an empty first row is a panic; any other shape keeps only the
raw data. -/
def unmarshalDataVar (raw : RawDataVar) : UnmarshalResult :=
  let v0 : DataVar := ⟨[], [], [], raw.data, raw.attrs, raw.dims⟩
  match raw.data with
  | [] => .ok v0
  | d0 :: _ =>
    if raw.attrs.longName = "time" then
      match decodeTimes raw.data with
      | .ok ts => .ok { v0 with timeData := ts }
      | .error e => .err e
    else
      match d0 with
      | .arr [] => .crash
      | .arr (f0 :: rest) =>
        match f0 with
        | .num _ => .ok { v0 with floatData := (f0 :: rest).map fun x =>
            match x with
            | .num q => q * raw.attrs.scaleFactor
            | _ => 0 }
        | _ => .ok v0
      | _ => .ok v0

end mesonet

/-- **C7 (divergence).** A data shape the claim files under "anything
else" — a nested array whose first row is empty, `data = [[]]`, on a
variable not named `time` — does not decode to raw-only data: the decoder
indexes the empty row and panics. -/
theorem unmarshal_crash_on_empty_row :
    mesonet.unmarshalDataVar ⟨⟨"tair", 1, "degF"⟩, [.arr []], ["time_5M"]⟩ =
      .crash := rfl
